import Mathlib

/-!
Verification development for the qtask job-queue engine
(`queue.ts`, `consumer.ts`, `redis-manager.ts`).

The TypeScript source is shallowly embedded: each method becomes a pure
Lean function over an explicit store/state, with external effects
(connection acquisition, script registration, publish) supplied by an
environment record describing the outcome of each call.  The Lua script
bodies (`enqueue.lua`, `dequeue.lua`, ...) are not part of the visible
source; their effects are modelled from the specification and marked as
such in their doc comments.
-/

namespace QTask

/-- Job status values, from `JobStatus` in `queue.interface.ts`. -/
inductive JobStatus where
  | queued
  | processing
  | completed
  | failed
deriving DecidableEq, Repr

/-- A job as stored in a group's ordered collection: identity, serialized
payload, group name, and the ordering/eligibility attributes computed at
admission. -/
structure StoredJob where
  id : Nat
  payload : String
  groupName : String
  priority : Int
  notBefore : Nat
  expiresAt : Option Nat
deriving DecidableEq, Repr

/-- The durable store: Redis sets (the per-queue group indexes), sorted
sets (per-group ordered job collections), per-job statuses, and a
counter supplying fresh job identities. -/
structure Store where
  sets : String → List String
  zsets : String → List StoredJob
  statuses : Nat → Option JobStatus
  nextId : Nat

def emptyStore : Store :=
  { sets := fun _ => []
    zsets := fun _ => []
    statuses := fun _ => none
    nextId := 0 }

/-- `SMEMBERS key` — members of a store set (missing key = empty). -/
def Store.setGet (st : Store) (k : String) : List String := st.sets k

/-- `SREM key v` — remove a member from a store set. -/
def Store.setRem (st : Store) (k v : String) : Store :=
  { st with sets := fun k2 => if k2 = k then (st.sets k).filter (fun x => x ≠ v) else st.sets k2 }

/-- `SADD key v` — add a member to a store set (idempotent). -/
def Store.setAdd (st : Store) (k v : String) : Store :=
  { st with sets := fun k2 =>
      if k2 = k then (if v ∈ st.sets k then st.sets k else st.sets k ++ [v]) else st.sets k2 }

/-- `ZCARD key` — size of a group's ordered collection. -/
def Store.zcard (st : Store) (k : String) : Nat := (st.zsets k).length

/-- Key of a queue's group index: `qtask:<queue>:groups` (queue.ts line 106). -/
def queueGroupsKey (queueName : String) : String :=
  "qtask:" ++ queueName ++ ":groups"

/-- Key of a group's ordered job collection: `qtask:<queue>:group:<group>`
(queue.ts line 243). -/
def groupKey (queueName groupName : String) : String :=
  "qtask:" ++ queueName ++ ":group:" ++ groupName

/-! ## Script/Connection Manager (`redis-manager.ts`) -/

/-- `RedisManager.loadLuaScript` (redis-manager.ts lines 111-124): reads the
script source from the file system; an I/O error is caught, logged, and
turned into `null`.  The file system is embedded as a map from script
name to the read outcome (`none` = read failure). -/
def loadLuaScript (fs : String → Option String) (scriptName : String) : Option String :=
  fs scriptName

/-- JS truthiness of a read outcome: `loadAndRegisterLuaScripts` guards
registration with `if (scriptContent)`, which skips both a failed read
(`null`) and an empty-but-successfully-read source (`''` is falsy). -/
def truthyContent : Option String → Bool
  | none => false
  | some c => !c.isEmpty

/-- `RedisManager.loadAndRegisterLuaScripts` (redis-manager.ts lines 81-104):
for each configured script name, load its source; when the source is
truthy (read succeeded and is non-empty) register it with the store
(`SCRIPT LOAD`, outcome supplied by `scriptLoad`, whose error rejects
the whole call) and record its SHA; a failed read (`none`) or an empty
source is skipped by the truthy guard.  The result is the final
name→SHA registration list, or the first registration error. -/
def loadAndRegisterLuaScripts (fs : String → Option String)
    (scriptLoad : String → Except String String) :
    List String → Except String (List (String × String))
  | [] => .ok []
  | n :: ns =>
    match loadLuaScript fs n with
    | none => loadAndRegisterLuaScripts fs scriptLoad ns
    | some content =>
      if content.isEmpty then loadAndRegisterLuaScripts fs scriptLoad ns
      else
        match scriptLoad content with
        | .error e => .error e
        | .ok sha =>
          match loadAndRegisterLuaScripts fs scriptLoad ns with
          | .error e => .error e
          | .ok rest => .ok ((n, sha) :: rest)

/-- `RedisManager.init` (redis-manager.ts lines 63-76): runs
`loadAndRegisterLuaScripts`; an error is logged and re-raised, so the
result is the same. -/
def redisManagerInit (fs : String → Option String)
    (scriptLoad : String → Except String String) (scripts : List String) :
    Except String (List (String × String)) :=
  loadAndRegisterLuaScripts fs scriptLoad scripts

/-- The script list configured by `Queue`'s constructor (queue.ts line 31). -/
def defaultScripts : List String := ["dequeue", "enqueue", "get_status", "update_status"]

/-! ## Consumer (`consumer.ts`) -/

/-- Consumer status, from consumer.ts line 17. -/
inductive ConsumerStatus where
  | SLEEPING
  | RUNNING
deriving DecidableEq, Repr

/-- The error message thrown by `Consumer.process` on a busy consumer
(consumer.ts line 49). -/
def busyMessage (queueName : String) : String :=
  "Consumer for queue " ++ queueName ++ " is already running."

/-- Outcome of one `Consumer.process` call: the returned/raised result,
the consumer's status after the call, and whether the caller-supplied
callback was invoked. -/
structure ProcOut where
  result : Except String Unit
  status : ConsumerStatus
  callbackInvoked : Bool
deriving Repr

/-- `Consumer.process` (consumer.ts lines 46-78).  If the consumer is
already `RUNNING` it throws the busy error before touching the status or
the callback.  Otherwise it sets `RUNNING`, awaits the callback — whose
completion signal is embedded as `cbOutcome` (`none` = `done()`,
`some e` = `done(e)`) — re-raises a callback error, and in a `finally`
block unconditionally restores `SLEEPING`. -/
def consumerProcess (queueName : String) (status : ConsumerStatus)
    (cbOutcome : Option String) : ProcOut :=
  match status with
  | .RUNNING => ⟨.error (busyMessage queueName), .RUNNING, false⟩
  | .SLEEPING =>
    match cbOutcome with
    | none => ⟨.ok (), .SLEEPING, true⟩
    | some e => ⟨.error e, .SLEEPING, true⟩

/-! ## Atomic scripts (bodies not in the visible source; modelled from the spec) -/

/-- Insert a job into a group's ordered collection, keeping it sorted by
`(priority, notBefore)` ascending, new entries after equal keys.
Modelled from the spec: the `enqueue.lua` body is not in the repository;
§4.2 step 3 specifies the sort key. -/
def zinsertList (j : StoredJob) : List StoredJob → List StoredJob
  | [] => [j]
  | x :: xs =>
    if j.priority < x.priority ∨ (j.priority = x.priority ∧ j.notBefore < x.notBefore) then
      j :: x :: xs
    else
      x :: zinsertList j xs

/-- Modelled from the spec: the `enqueue.lua` script body is not in the
repository.  Per §4.2 it atomically: generates a fresh job identity,
computes `notBefore = now + delay` and `expiresAt = now + ttl` when
`ttl > 0`, inserts the job into the group's ordered collection with sort
key `(priority, notBefore)`, adds the group key to the queue's group
index (idempotent), records the initial `queued` status, and returns the
identity. -/
def enqueueScript (st : Store) (queueKey grpKey : String) (payload groupName : String)
    (priority : Int) (delay ttl : Nat) (now : Nat) : Nat × Store :=
  let jobId := st.nextId
  let notBefore := now + delay
  let expiresAt := if ttl > 0 then some (now + ttl) else none
  let job : StoredJob := ⟨jobId, payload, groupName, priority, notBefore, expiresAt⟩
  let st1 : Store :=
    { st with zsets := fun k2 => if k2 = grpKey then zinsertList job (st.zsets grpKey) else st.zsets k2 }
  let st2 := st1.setAdd queueKey grpKey
  (jobId,
   { st2 with
      statuses := fun n => if n = jobId then some .queued else st.statuses n
      nextId := st.nextId + 1 })

/-- Helper for the dequeue script: scan the sorted collection from its
head; an entry whose `expiresAt` has elapsed is discarded (its id is
collected for marking `failed`) and the scan continues; the first
non-expired entry with `notBefore ≤ now` is popped; an entry not yet
eligible stops the scan (the group yields nothing this sweep).
Modelled from the spec (§4.3). -/
def dequeueLoop (now : Nat) : List StoredJob → Option StoredJob × List StoredJob × List Nat
  | [] => (none, [], [])
  | j :: js =>
    if j.notBefore ≤ now then
      match j.expiresAt with
      | some e =>
        if e ≤ now then
          let r := dequeueLoop now js
          (r.1, r.2.1, j.id :: r.2.2)
        else (some j, js, [])
      | none => (some j, js, [])
    else (none, j :: js, [])

/-- Modelled from the spec: the `dequeue.lua` script body is not in the
repository.  Per §4.3 and the §6 contract
`dequeue(groupKey) → [jobId, payloadJson, groupName] | nil`, it
atomically pops the best-ranked eligible job of the group, discards
(marks `failed`) expired entries it passes over, marks the popped job
`processing`, and returns its identity, serialized payload and group
name — or `nil` when the group yields nothing. -/
def dequeueScript (st : Store) (grpKey : String) (now : Nat) :
    Option (Nat × String × String) × Store :=
  let r := dequeueLoop now (st.zsets grpKey)
  let discard := fun (sts : Nat → Option JobStatus) =>
    fun n => if n ∈ r.2.2 then some JobStatus.failed else sts n
  let st1 : Store :=
    { st with
        zsets := fun k2 => if k2 = grpKey then r.2.1 else st.zsets k2
        statuses := discard st.statuses }
  match r.1 with
  | none => (none, st1)
  | some j =>
    (some (j.id, j.payload, j.groupName),
     { st1 with statuses := fun n => if n = j.id then some .processing else st1.statuses n })

/-! ## Queue orchestrator (`queue.ts`) -/

/-- Instance role, from `IQueueOptions.type`. -/
inductive QueueType where
  | publisher
  | subscriber
deriving DecidableEq, Repr

/-- The constructor (queue.ts lines 40-47) creates a `publisherClient`
only when the instance type is `publisher`; a subscriber instance has no
publisher connection. -/
def hasPublisherClient : QueueType → Bool
  | .publisher => true
  | .subscriber => false

/-- Outcomes of the external calls `Queue.add` makes: connection
acquisition, the cached `enqueue` SHA being present, the `EVALSHA`
transport succeeding, and the `PUBLISH` succeeding. -/
structure AddEnv where
  getClientOk : Bool
  shaLoaded : Bool
  enqueueOk : Bool
  publishOk : Bool
deriving DecidableEq, Repr

/-- An `AddEnv` in which every external call succeeds. -/
def envOk : AddEnv := ⟨true, true, true, true⟩

/-- Result of one `Queue.add` call: the value returned to (or error
raised at) the caller, the store afterwards, and whether a notification
publish was attempted. -/
structure AddOut where
  result : Except String (Option Nat)
  store : Store
  publishAttempted : Bool

/-- `Queue.add` (queue.ts lines 226-273).  `getClient()` is awaited
before the `try` block, so an acquisition failure is raised to the
caller.  Inside the `try`: a missing `enqueue` SHA logs and returns
`null`; the `enqueue` script is invoked via `EVALSHA` with the
serialized payload (a transport failure is caught and returns `null`,
the store unchanged — the script is atomic); then, when a
`publisherClient` exists, a notification is published — a publish
failure is also caught and returns `null`, although the job was already
admitted. -/
def queueAdd {α : Type} (ty : QueueType) (env : AddEnv) (enc : α → String)
    (queueName groupName : String) (data : α) (priority : Int) (delay ttl : Nat)
    (now : Nat) (st : Store) : AddOut :=
  if !env.getClientOk then ⟨.error "Error getting Redis client", st, false⟩
  else if !env.shaLoaded then ⟨.ok none, st, false⟩
  else if !env.enqueueOk then ⟨.ok none, st, false⟩
  else
    let r := enqueueScript st (queueGroupsKey queueName) (groupKey queueName groupName)
      (enc data) groupName priority delay ttl now
    if hasPublisherClient ty then
      if env.publishOk then ⟨.ok (some r.1), r.2, true⟩
      else ⟨.ok none, r.2, true⟩
    else ⟨.ok (some r.1), r.2, false⟩

/-- A job as handed to a consumer (queue.ts lines 136-140): the store
identity, the parsed payload, and the group name from the script
result. -/
structure JobRec (α : Type) where
  id : Nat
  data : α
  groupName : String
deriving DecidableEq, Repr

/-- Observable events of one sweep over a queue. -/
inductive Event where
  | pruned (grpKey : String)
  | callDequeue (grpKey : String)
  | callUpdateStatus (jobId : Nat) (s : JobStatus)
  | dequeued (grpKey : String) (jobId : Nat)
  | parseError (jobId : Nat)
  | busy (jobId : Nat)
  | processed (jobId : Nat) (ok : Bool)
deriving DecidableEq, Repr

/-- Result of a sweep: the store afterwards, the consumer's final
status, the event trace, and the jobs actually delivered to the
consumer's callback. -/
structure SweepOut (α : Type) where
  store : Store
  consumer : ConsumerStatus
  events : List Event
  delivered : List (JobRec α)

/-- The per-group body of `Queue.processQueueTasks` (queue.ts lines
114-151): `ZCARD` the group; when empty, `SREM` it from the group index
and continue; otherwise invoke the `dequeue` script once; a `nil`
result skips the group; otherwise parse the payload (a parse error is
caught per job and the sweep continues) and hand the job to
`Consumer.process`, whose busy error or re-raised callback error is
also caught per job. -/
def sweepGroup {α : Type} (decode : String → Option α) (cb : JobRec α → Option String)
    (queueName qGroupsKey grpKey : String) (now : Nat) (st : Store)
    (c : ConsumerStatus) : Store × ConsumerStatus × List Event × List (JobRec α) :=
  if st.zcard grpKey = 0 then
    (st.setRem qGroupsKey grpKey, c, [.pruned grpKey], [])
  else
    match dequeueScript st grpKey now with
    | (none, st1) => (st1, c, [.callDequeue grpKey], [])
    | (some (jobId, payloadStr, gName), st1) =>
      match decode payloadStr with
      | none => (st1, c, [.callDequeue grpKey, .dequeued grpKey jobId, .parseError jobId], [])
      | some d =>
        let job : JobRec α := ⟨jobId, d, gName⟩
        let p := consumerProcess queueName c (cb job)
        if p.callbackInvoked then
          (st1, p.status,
           [.callDequeue grpKey, .dequeued grpKey jobId, .processed jobId p.result.isOk],
           [job])
        else
          (st1, p.status, [.callDequeue grpKey, .dequeued grpKey jobId, .busy jobId], [])

/-- The `for (const groupKey of groups)` loop of `processQueueTasks`,
iterating over the group list read once at the start of the sweep. -/
def sweepGroups {α : Type} (decode : String → Option α) (cb : JobRec α → Option String)
    (queueName qGroupsKey : String) (now : Nat) :
    List String → Store → ConsumerStatus → SweepOut α
  | [], st, c => ⟨st, c, [], []⟩
  | g :: gs, st, c =>
    let r := sweepGroup decode cb queueName qGroupsKey g now st c
    let rest := sweepGroups decode cb queueName qGroupsKey now gs r.1 r.2.1
    ⟨rest.store, rest.consumer, r.2.2.1 ++ rest.events, r.2.2.2 ++ rest.delivered⟩

/-- `Queue.processQueueTasks` (queue.ts lines 95-161): when the
`dequeue` SHA is not cached, log and return without touching the store;
otherwise read the queue's group index (`SMEMBERS`) once and run the
per-group loop. -/
def processQueueTasks {α : Type} (decode : String → Option α)
    (cb : JobRec α → Option String) (queueName : String) (shaLoaded : Bool)
    (now : Nat) (st : Store) (c : ConsumerStatus) : SweepOut α :=
  if !shaLoaded then ⟨st, c, [], []⟩
  else
    sweepGroups decode cb queueName (queueGroupsKey queueName) now
      (st.setGet (queueGroupsKey queueName)) st c

/-- Result of one `Queue.process` call: the returned/raised result, the
registered consumer set afterwards, and the immediate sweep it ran (if
any). -/
structure RegisterOut (α : Type) where
  result : Except String Unit
  consumers : List String
  sweep : Option (SweepOut α)

/-- `Queue.process` (queue.ts lines 280-296): throws unless the instance
type is `subscriber`; throws when a consumer for the queue name is
already registered; otherwise registers a fresh consumer (initial
status `SLEEPING`) and immediately runs one sweep for the queue. -/
def queueProcess {α : Type} (ty : QueueType) (consumers : List String)
    (queueName : String) (decode : String → Option α)
    (cb : JobRec α → Option String) (shaLoaded : Bool) (now : Nat) (st : Store) :
    RegisterOut α :=
  if ty ≠ .subscriber then
    ⟨.error "Only subscriber instances can process jobs", consumers, none⟩
  else if queueName ∈ consumers then
    ⟨.error ("A processor for queue '" ++ queueName ++ "' already exists"), consumers, none⟩
  else
    ⟨.ok (), consumers ++ [queueName],
     some (processQueueTasks decode cb queueName shaLoaded now st .SLEEPING)⟩

/-! ## Event predicates -/

/-- Whether an event is an `update_status` script invocation. -/
def Event.isUpdateStatus : Event → Bool
  | .callUpdateStatus _ _ => true
  | _ => false

/-- Whether an event records a job dequeued from group key `g`. -/
def Event.isDequeuedFrom (g : String) : Event → Bool
  | .dequeued g2 _ => g2 = g
  | _ => false

/-- Whether an event records a visit of group key `g` during a sweep: a
group is visited either by being pruned or by a `dequeue` script
invocation. -/
def Event.isVisitOf (g : String) : Event → Bool
  | .pruned g2 => g2 = g
  | .callDequeue g2 => g2 = g
  | _ => false

/-! ## Concrete fixtures for counterexamples and witnesses -/

/-- A file system on which reading the `dequeue` script source fails and
every other read succeeds. -/
def fsFailDequeue : String → Option String :=
  fun n => if n = "dequeue" then none else some ("src-" ++ n)

/-- A `SCRIPT LOAD` outcome map that always succeeds. -/
def scriptLoadOk : String → Except String String :=
  fun c => .ok ("sha-" ++ c)

/-- A store holding a single queued job (id 5) in group `G` of queue `q`. -/
def singleJobStore : Store :=
  { sets := fun k => if k = queueGroupsKey "q" then [groupKey "q" "G"] else []
    zsets := fun k => if k = groupKey "q" "G" then [⟨5, "p", "G", 0, 0, none⟩] else []
    statuses := fun n => if n = 5 then some .queued else none
    nextId := 6 }

/-- A store for queue `q` with group `G1` holding three eligible jobs
and group `G2` holding one. -/
def twoGroupStore : Store :=
  { sets := fun k => if k = queueGroupsKey "q" then [groupKey "q" "G1", groupKey "q" "G2"] else []
    zsets := fun k =>
      if k = groupKey "q" "G1" then
        [⟨1, "a", "G1", 0, 0, none⟩, ⟨2, "b", "G1", 0, 0, none⟩, ⟨3, "c", "G1", 0, 0, none⟩]
      else if k = groupKey "q" "G2" then [⟨4, "d", "G2", 0, 0, none⟩]
      else []
    statuses := fun _ => none
    nextId := 10 }

/-- A store for queue `q` whose group index lists an empty group `E`
alongside a non-empty group `G`. -/
def emptyGroupStore : Store :=
  { sets := fun k => if k = queueGroupsKey "q" then [groupKey "q" "E", groupKey "q" "G"] else []
    zsets := fun k => if k = groupKey "q" "G" then [⟨7, "p", "G", 0, 0, none⟩] else []
    statuses := fun n => if n = 7 then some .queued else none
    nextId := 8 }

/-- The identity payload codec used by concrete witnesses. -/
def strDecode : String → Option String := fun s => some s

/-- A callback that always reports success. -/
def cbOk : JobRec String → Option String := fun _ => none

/-! ## Claims -/

/-- C1 (counterexample): reading the `dequeue` script source fails, yet
`init()` resolves successfully with the remaining scripts registered —
it does not reject, contradicting the claim that any script-load I/O
error makes `init()` fail. -/
theorem C1_counterexample :
    "dequeue" ∈ defaultScripts ∧ fsFailDequeue "dequeue" = none ∧
      redisManagerInit fsFailDequeue scriptLoadOk defaultScripts =
        .ok [("enqueue", "sha-src-enqueue"), ("get_status", "sha-src-get_status"),
             ("update_status", "sha-src-update_status")] :=
  ⟨by decide, rfl, rfl⟩

/-- C1 (amended): a read failure of a script's source never makes
`init()` reject; when registration with the store succeeds for every
loaded source, `init()` resolves successfully and registers exactly the
scripts whose read outcome is truthy (readable and non-empty), silently
skipping the rest. -/
theorem C1_init_skips_unreadable_scripts (fs : String → Option String)
    (sl : String → Except String String) (h : ∀ c, ∃ s, sl c = .ok s)
    (l : List String) :
    ∃ r, redisManagerInit fs sl l = .ok r ∧
      r.map Prod.fst = l.filter (fun n => truthyContent (fs n)) := by
  induction l with
  | nil => exact ⟨[], rfl, rfl⟩
  | cons n ns ih =>
    obtain ⟨r, hr, hm⟩ := ih
    cases hfs : fs n with
    | none =>
      refine ⟨r, ?_, ?_⟩
      · simpa [redisManagerInit, loadAndRegisterLuaScripts, loadLuaScript, hfs] using hr
      · simp [hfs, hm, truthyContent]
    | some content =>
      by_cases hemp : content.isEmpty
      · refine ⟨r, ?_, ?_⟩
        · simpa [redisManagerInit, loadAndRegisterLuaScripts, loadLuaScript, hfs,
            hemp] using hr
        · simp [hfs, hm, truthyContent, hemp]
      · obtain ⟨s, hs⟩ := h content
        refine ⟨(n, s) :: r, ?_, ?_⟩
        · simp only [redisManagerInit, loadAndRegisterLuaScripts, loadLuaScript,
            hfs, hemp, if_false, Bool.false_eq_true, hs]
          simp only [redisManagerInit] at hr
          rw [hr]
        · simp [hfs, hm, truthyContent, hemp]

/-- C1 (witness): the amended statement instantiated at the file system
that fails on `dequeue` and an always-succeeding registration. -/
theorem C1_witness :
    ∃ r, redisManagerInit fsFailDequeue scriptLoadOk defaultScripts = .ok r ∧
      r.map Prod.fst = defaultScripts.filter (fun n => truthyContent (fsFailDequeue n)) :=
  C1_init_skips_unreadable_scripts fsFailDequeue scriptLoadOk
    (fun c => ⟨"sha-" ++ c, rfl⟩) defaultScripts

/-- C4: dispatching a job to a consumer whose status is `RUNNING` raises
the busy error immediately, leaves the status `RUNNING`, and never
invokes the processing callback — so at most one job is in flight per
consumer. -/
theorem C4_busy_dispatch_rejected (queueName : String) (cbOutcome : Option String) :
    consumerProcess queueName .RUNNING cbOutcome =
      ⟨.error (busyMessage queueName), .RUNNING, false⟩ :=
  rfl

/-- C5: for a job dispatched to a `SLEEPING` consumer, after the
`process` call completes the consumer is `SLEEPING` again and the
callback was invoked, whether the callback succeeded (the call
resolves) or reported an error (the error is re-raised); the
`RUNNING → SLEEPING` transition is unconditional. -/
theorem C5_unconditional_sleep (queueName : String) (cbOutcome : Option String) :
    (consumerProcess queueName .SLEEPING cbOutcome).status = .SLEEPING ∧
    (consumerProcess queueName .SLEEPING cbOutcome).callbackInvoked = true ∧
    (consumerProcess queueName .SLEEPING cbOutcome).result =
      (match cbOutcome with | none => .ok () | some e => .error e) := by
  cases cbOutcome <;> exact ⟨rfl, rfl, rfl⟩

/-- C2 (counterexample): `add` both raises and admits-yet-returns-none.
When connection acquisition fails, `add` raises to the caller (the
`getClient()` await sits before the `try` block).  And when the
post-enqueue notification publish fails, `add` returns `none` although
the job was already admitted to the store — so `none` does not imply
"not admitted". -/
theorem C2_counterexample :
    (queueAdd .publisher ⟨false, true, true, true⟩ (fun s : String => s)
        "q" "g" "data" 0 0 0 100 emptyStore).result = .error "Error getting Redis client" ∧
    (queueAdd .publisher ⟨true, true, true, false⟩ (fun s : String => s)
        "q" "g" "data" 0 0 0 100 emptyStore).result = .ok none ∧
    (queueAdd .publisher ⟨true, true, true, false⟩ (fun s : String => s)
        "q" "g" "data" 0 0 0 100 emptyStore).store.zsets (groupKey "q" "g") ≠ [] :=
  ⟨rfl, rfl, by decide⟩

/-- C2 (amended): `add` raises only when acquiring a store connection
fails, and then the store is untouched; whenever it returns `none`,
either the store is unchanged (the job was not admitted: missing script
or failed atomic step) or the enqueue script committed and only the
subsequent best-effort publish failed. -/
theorem C2_add_failure_modes {α : Type} (ty : QueueType) (env : AddEnv) (enc : α → String)
    (q g : String) (d : α) (prio : Int) (delay ttl now : Nat) (st : Store) :
    (∀ e, (queueAdd ty env enc q g d prio delay ttl now st).result = .error e →
      env.getClientOk = false ∧ (queueAdd ty env enc q g d prio delay ttl now st).store = st) ∧
    ((queueAdd ty env enc q g d prio delay ttl now st).result = .ok none →
      (queueAdd ty env enc q g d prio delay ttl now st).store = st ∨
      (env.publishOk = false ∧
       (queueAdd ty env enc q g d prio delay ttl now st).publishAttempted = true ∧
       (queueAdd ty env enc q g d prio delay ttl now st).store =
         (enqueueScript st (queueGroupsKey q) (groupKey q g) (enc d) g prio delay ttl now).2)) := by
  obtain ⟨gc, sha, enq, pub⟩ := env
  cases gc <;> cases sha <;> cases enq <;> cases pub <;> cases ty <;>
    simp [queueAdd, hasPublisherClient]

/-- C2 (witness): the amended statement instantiated at a failing
connection acquisition and at a failing publish. -/
theorem C2_witness :
    ((⟨false, true, true, true⟩ : AddEnv).getClientOk = false ∧
      (queueAdd .publisher ⟨false, true, true, true⟩ (fun s : String => s)
        "q" "g" "data" 0 0 0 100 emptyStore).store = emptyStore) ∧
    ((queueAdd .publisher ⟨true, true, true, false⟩ (fun s : String => s)
        "q" "g" "data" 0 0 0 100 emptyStore).store = emptyStore ∨
     ((⟨true, true, true, false⟩ : AddEnv).publishOk = false ∧
      (queueAdd .publisher ⟨true, true, true, false⟩ (fun s : String => s)
        "q" "g" "data" 0 0 0 100 emptyStore).publishAttempted = true ∧
      (queueAdd .publisher ⟨true, true, true, false⟩ (fun s : String => s)
        "q" "g" "data" 0 0 0 100 emptyStore).store =
        (enqueueScript emptyStore (queueGroupsKey "q") (groupKey "q" "g")
          "data" "g" 0 0 0 100).2)) :=
  ⟨(C2_add_failure_modes .publisher ⟨false, true, true, true⟩ (fun s : String => s)
      "q" "g" "data" 0 0 0 100 emptyStore).1 "Error getting Redis client" rfl,
   (C2_add_failure_modes .publisher ⟨true, true, true, false⟩ (fun s : String => s)
      "q" "g" "data" 0 0 0 100 emptyStore).2 rfl⟩

/-- One group visit emits no `update_status` invocation. -/
theorem sweepGroup_no_update {α : Type} (decode : String → Option α)
    (cb : JobRec α → Option String) (qn qk g : String) (now : Nat) (st : Store)
    (c : ConsumerStatus) :
    ((sweepGroup decode cb qn qk g now st c).2.2.1).countP Event.isUpdateStatus = 0 := by
  unfold sweepGroup
  split
  · rfl
  · rcases hdq : dequeueScript st g now with ⟨r, st1⟩
    cases r with
    | none => simp [hdq, Event.isUpdateStatus]
    | some t =>
      obtain ⟨jid, pstr, gn⟩ := t
      cases hd : decode pstr with
      | none => simp [hdq, hd, List.countP_cons, Event.isUpdateStatus]
      | some d =>
        by_cases hinv :
            (consumerProcess qn c (cb ⟨jid, d, gn⟩)).callbackInvoked = true <;>
          simp [hdq, hd, hinv, List.countP_cons, Event.isUpdateStatus]

/-- A whole sweep emits no `update_status` invocation. -/
theorem sweepGroups_no_update {α : Type} (decode : String → Option α)
    (cb : JobRec α → Option String) (qn qk : String) (now : Nat)
    (gs : List String) (st : Store) (c : ConsumerStatus) :
    ((sweepGroups decode cb qn qk now gs st c).events).countP Event.isUpdateStatus = 0 := by
  induction gs generalizing st c with
  | nil => rfl
  | cons g gs ih =>
    simp only [sweepGroups, List.countP_append]
    rw [sweepGroup_no_update, ih]

/-- C3 (counterexample): a queued job (id 5) is dequeued and its
callback completes successfully, yet its stored status after the sweep
is still `processing`, not `completed` — the completion report performs
no durable status update. -/
theorem C3_counterexample :
    (processQueueTasks strDecode cbOk "q" true 0 singleJobStore .SLEEPING).events =
      [.callDequeue (groupKey "q" "G"), .dequeued (groupKey "q" "G") 5, .processed 5 true] ∧
    (processQueueTasks strDecode cbOk "q" true 0 singleJobStore .SLEEPING).store.statuses 5 =
      some .processing ∧
    (processQueueTasks strDecode cbOk "q" true 0 singleJobStore .SLEEPING).store.statuses 5 ≠
      some .completed :=
  ⟨by decide, by decide, by decide⟩

/-- C3 (amended): the dequeue script marks a popped job `processing`
(per its contract), but the consumer's completion report performs no
durable status mutation: no sweep ever invokes `update_status`, and
after the callback completes — successfully or with an error — the
job's stored status remains `processing`. -/
theorem C3_status_left_processing :
    (∀ (α : Type) (decode : String → Option α) (cb : JobRec α → Option String)
        (q : String) (sha : Bool) (now : Nat) (st : Store) (c : ConsumerStatus),
      ((processQueueTasks decode cb q sha now st c).events).countP Event.isUpdateStatus = 0) ∧
    (processQueueTasks strDecode cbOk "q" true 0 singleJobStore .SLEEPING).store.statuses 5 =
      some .processing ∧
    (processQueueTasks strDecode (fun _ => some "boom") "q" true 0
        singleJobStore .SLEEPING).store.statuses 5 = some .processing := by
  refine ⟨?_, by decide, by decide⟩
  intro α decode cb q sha now st c
  unfold processQueueTasks
  split
  · rfl
  · exact sweepGroups_no_update decode cb q (queueGroupsKey q) now _ st c

/-- One group visit emits exactly one visit event, tagged with the
visited group's key. -/
theorem sweepGroup_visit_count {α : Type} (decode : String → Option α)
    (cb : JobRec α → Option String) (qn qk g : String) (now : Nat) (st : Store)
    (c : ConsumerStatus) (g2 : String) :
    ((sweepGroup decode cb qn qk g now st c).2.2.1).countP (Event.isVisitOf g2) =
      if g = g2 then 1 else 0 := by
  unfold sweepGroup
  split
  · by_cases hg : g = g2 <;> simp [Event.isVisitOf, List.countP_cons, hg]
  · rcases hdq : dequeueScript st g now with ⟨r, st1⟩
    cases r with
    | none => by_cases hg : g = g2 <;> simp [hdq, Event.isVisitOf, List.countP_cons, hg]
    | some t =>
      obtain ⟨jid, pstr, gn⟩ := t
      cases hd : decode pstr with
      | none =>
        by_cases hg : g = g2 <;> simp [hdq, hd, Event.isVisitOf, List.countP_cons, hg]
      | some d =>
        by_cases hinv :
            (consumerProcess qn c (cb ⟨jid, d, gn⟩)).callbackInvoked = true <;>
          by_cases hg : g = g2 <;>
          simp [hdq, hd, hinv, hg, Event.isVisitOf, List.countP_cons]

/-- One group visit dequeues at most one job, and only from the visited
group's key. -/
theorem sweepGroup_dequeue_count {α : Type} (decode : String → Option α)
    (cb : JobRec α → Option String) (qn qk g : String) (now : Nat) (st : Store)
    (c : ConsumerStatus) (g2 : String) :
    ((sweepGroup decode cb qn qk g now st c).2.2.1).countP (Event.isDequeuedFrom g2) ≤
      if g = g2 then 1 else 0 := by
  unfold sweepGroup
  split
  · by_cases hg : g = g2 <;> simp [Event.isDequeuedFrom, List.countP_cons, hg]
  · rcases hdq : dequeueScript st g now with ⟨r, st1⟩
    cases r with
    | none => by_cases hg : g = g2 <;> simp [hdq, Event.isDequeuedFrom, List.countP_cons, hg]
    | some t =>
      obtain ⟨jid, pstr, gn⟩ := t
      cases hd : decode pstr with
      | none =>
        by_cases hg : g = g2 <;> simp [hdq, hd, Event.isDequeuedFrom, List.countP_cons, hg]
      | some d =>
        by_cases hinv :
            (consumerProcess qn c (cb ⟨jid, d, gn⟩)).callbackInvoked = true <;>
          by_cases hg : g = g2 <;>
          simp [hdq, hd, hinv, hg, Event.isDequeuedFrom, List.countP_cons]

/-- Across a sweep, the visit events for a group key equal its number of
occurrences in the iterated group list. -/
theorem sweepGroups_visit_count {α : Type} (decode : String → Option α)
    (cb : JobRec α → Option String) (qn qk : String) (now : Nat) (g2 : String)
    (gs : List String) (st : Store) (c : ConsumerStatus) :
    ((sweepGroups decode cb qn qk now gs st c).events).countP (Event.isVisitOf g2) =
      gs.count g2 := by
  induction gs generalizing st c with
  | nil => rfl
  | cons g gs ih =>
    simp only [sweepGroups, List.countP_append]
    rw [sweepGroup_visit_count, ih]
    by_cases hg : g = g2
    · subst hg
      have hc : (g :: gs).count g = gs.count g + 1 := by simp
      rw [if_pos rfl]
      omega
    · have hc : (g :: gs).count g2 = gs.count g2 := by
        simp [List.count_cons, hg]
      rw [if_neg hg]
      omega

/-- Across a sweep, the dequeue events for a group key are bounded by
its number of occurrences in the iterated group list. -/
theorem sweepGroups_dequeue_count {α : Type} (decode : String → Option α)
    (cb : JobRec α → Option String) (qn qk : String) (now : Nat) (g2 : String)
    (gs : List String) (st : Store) (c : ConsumerStatus) :
    ((sweepGroups decode cb qn qk now gs st c).events).countP (Event.isDequeuedFrom g2) ≤
      gs.count g2 := by
  induction gs generalizing st c with
  | nil => exact Nat.le_refl 0
  | cons g gs ih =>
    simp only [sweepGroups, List.countP_append]
    have h1 := sweepGroup_dequeue_count decode cb qn qk g now st c g2
    have h2 := ih (sweepGroup decode cb qn qk g now st c).1
      (sweepGroup decode cb qn qk g now st c).2.1
    by_cases hg : g = g2
    · subst hg
      have hc : (g :: gs).count g = gs.count g + 1 := by simp
      rw [if_pos rfl] at h1
      omega
    · have hc : (g :: gs).count g2 = gs.count g2 := by
        simp [List.count_cons, hg]
      rw [if_neg hg] at h1
      omega

/-- C6: a sweep over a queue visits each group in the queue's group
index exactly once and dequeues at most one job per group, so with
groups G1 (many pending jobs) and G2 (one) a single sweep delivers at
most one job from each and never starves G2. -/
theorem C6_sweep_fairness {α : Type} (decode : String → Option α)
    (cb : JobRec α → Option String) (q : String) (now : Nat) (st : Store)
    (c : ConsumerStatus) (g2 : String)
    (h : (st.setGet (queueGroupsKey q)).Nodup) :
    ((processQueueTasks decode cb q true now st c).events).countP (Event.isVisitOf g2) =
      (if g2 ∈ st.setGet (queueGroupsKey q) then 1 else 0) ∧
    ((processQueueTasks decode cb q true now st c).events).countP
        (Event.isDequeuedFrom g2) ≤ 1 := by
  have hv := sweepGroups_visit_count decode cb q (queueGroupsKey q) now g2
    (st.setGet (queueGroupsKey q)) st c
  have hd := sweepGroups_dequeue_count decode cb q (queueGroupsKey q) now g2
    (st.setGet (queueGroupsKey q)) st c
  constructor
  · rw [processQueueTasks]
    simp only [Bool.not_true, Bool.false_eq_true, if_false]
    rw [hv]
    by_cases hm : g2 ∈ st.setGet (queueGroupsKey q)
    · rw [if_pos hm, List.count_eq_one_of_mem h hm]
    · rw [if_neg hm, List.count_eq_zero_of_not_mem hm]
  · rw [processQueueTasks]
    simp only [Bool.not_true, Bool.false_eq_true, if_false]
    exact Nat.le_trans hd (List.nodup_iff_count_le_one.1 h g2)

/-- C6 (witness): the fairness statement at a concrete store with group
G1 holding three eligible jobs and G2 holding one; the sweep delivers
exactly one job from G1 and the single G2 job — G2 is not starved. -/
theorem C6_witness :
    (twoGroupStore.setGet (queueGroupsKey "q")).Nodup ∧
    (((processQueueTasks strDecode cbOk "q" true 0 twoGroupStore .SLEEPING).events).countP
        (Event.isVisitOf (groupKey "q" "G2")) =
      (if groupKey "q" "G2" ∈ twoGroupStore.setGet (queueGroupsKey "q") then 1 else 0) ∧
     ((processQueueTasks strDecode cbOk "q" true 0 twoGroupStore .SLEEPING).events).countP
        (Event.isDequeuedFrom (groupKey "q" "G2")) ≤ 1) ∧
    (processQueueTasks strDecode cbOk "q" true 0 twoGroupStore .SLEEPING).delivered =
      [⟨1, "a", "G1"⟩, ⟨4, "d", "G2"⟩] :=
  ⟨by decide,
   C6_sweep_fairness strDecode cbOk "q" 0 twoGroupStore .SLEEPING
     (groupKey "q" "G2") (by decide),
   by decide⟩

/-- The dequeue script never touches store sets. -/
theorem dequeueScript_sets (st : Store) (g : String) (now : Nat) :
    ((dequeueScript st g now).2).sets = st.sets := by
  cases hdl : (dequeueLoop now (st.zsets g)).1 <;> simp [dequeueScript, hdl]

/-- The dequeue script only modifies the swept group's collection. -/
theorem dequeueScript_zsets_other (st : Store) (g : String) (now : Nat)
    (k : String) (hk : k ≠ g) :
    ((dequeueScript st g now).2).zsets k = st.zsets k := by
  cases hdl : (dequeueLoop now (st.zsets g)).1 <;> simp [dequeueScript, hdl, hk]

/-- The store after one group visit is either the group pruned from the
index (empty group) or the dequeue script's store (non-empty group). -/
theorem sweepGroup_store {α : Type} (decode : String → Option α)
    (cb : JobRec α → Option String) (qn qk g : String) (now : Nat) (st : Store)
    (c : ConsumerStatus) :
    ((sweepGroup decode cb qn qk g now st c).1 = st.setRem qk g ∧ st.zcard g = 0) ∨
    ((sweepGroup decode cb qn qk g now st c).1 = (dequeueScript st g now).2 ∧
      st.zcard g ≠ 0) := by
  unfold sweepGroup
  split
  · exact Or.inl ⟨rfl, by assumption⟩
  · refine Or.inr ⟨?_, by assumption⟩
    rcases hdq : dequeueScript st g now with ⟨r, st1⟩
    cases r with
    | none => simp [hdq]
    | some t =>
      obtain ⟨jid, pstr, gn⟩ := t
      cases hd : decode pstr with
      | none => simp [hdq, hd]
      | some d =>
        by_cases hinv :
            (consumerProcess qn c (cb ⟨jid, d, gn⟩)).callbackInvoked = true <;>
          simp [hdq, hd, hinv]

/-- Removing a set member can only shrink set membership. -/
theorem Store.mem_setRem (st : Store) (k v k2 : String) (x : String)
    (h : x ∈ (st.setRem k v).sets k2) : x ∈ st.sets k2 := by
  unfold Store.setRem at h
  by_cases hk : k2 = k
  · subst hk
    simp only [if_pos rfl] at h
    exact (List.mem_filter.1 h).1
  · simpa [hk] using h

/-- A group visit never adds members to any store set. -/
theorem sweepGroup_sets_mem {α : Type} (decode : String → Option α)
    (cb : JobRec α → Option String) (qn qk g : String) (now : Nat) (st : Store)
    (c : ConsumerStatus) (k x : String)
    (h : x ∈ ((sweepGroup decode cb qn qk g now st c).1).sets k) : x ∈ st.sets k := by
  rcases sweepGroup_store decode cb qn qk g now st c with ⟨he, _⟩ | ⟨he, _⟩
  · rw [he] at h
    exact Store.mem_setRem st qk g k x h
  · rw [he, dequeueScript_sets] at h
    exact h

/-- A sweep never adds members to any store set. -/
theorem sweepGroups_sets_mem {α : Type} (decode : String → Option α)
    (cb : JobRec α → Option String) (qn qk : String) (now : Nat)
    (gs : List String) (st : Store) (c : ConsumerStatus) (k x : String)
    (h : x ∈ ((sweepGroups decode cb qn qk now gs st c).store).sets k) :
    x ∈ st.sets k := by
  induction gs generalizing st c with
  | nil => exact h
  | cons g gs ih =>
    exact sweepGroup_sets_mem decode cb qn qk g now st c k x (ih _ _ h)

/-- A group visit never adds jobs to another group's collection. -/
theorem sweepGroup_zsets_other {α : Type} (decode : String → Option α)
    (cb : JobRec α → Option String) (qn qk g : String) (now : Nat) (st : Store)
    (c : ConsumerStatus) (k : String) (hk : k ≠ g) :
    ((sweepGroup decode cb qn qk g now st c).1).zsets k = st.zsets k := by
  rcases sweepGroup_store decode cb qn qk g now st c with ⟨he, _⟩ | ⟨he, _⟩
  · rw [he]; rfl
  · rw [he]
    exact dequeueScript_zsets_other st g now k hk

/-- Sweeping a list of groups containing a group with an empty
collection removes that group from the index set. -/
theorem sweepGroups_prune_empty {α : Type} (decode : String → Option α)
    (cb : JobRec α → Option String) (qn qk : String) (now : Nat) (g : String)
    (gs : List String) (st : Store) (c : ConsumerStatus)
    (hmem : g ∈ gs) (hempty : st.zsets g = []) :
    g ∉ ((sweepGroups decode cb qn qk now gs st c).store).sets qk := by
  induction gs generalizing st c with
  | nil => exact absurd hmem (List.not_mem_nil g)
  | cons hd tl ih =>
    by_cases hg : hd = g
    · subst hg
      have hstore : (sweepGroup decode cb qn qk hd now st c).1 = st.setRem qk hd := by
        unfold sweepGroup
        rw [if_pos (by simp [Store.zcard, hempty])]
      intro hfin
      have h2 := sweepGroups_sets_mem decode cb qn qk now tl _ _ qk hd hfin
      rw [hstore] at h2
      unfold Store.setRem at h2
      simp [List.mem_filter] at h2
    · have htl : g ∈ tl := by
        rcases List.mem_cons.1 hmem with h | h
        · exact absurd h.symm hg
        · exact h
      have hz : ((sweepGroup decode cb qn qk hd now st c).1).zsets g = [] := by
        rw [sweepGroup_zsets_other decode cb qn qk hd now st c g
          (fun h => hg h.symm), hempty]
      exact ih _ _ htl hz

/-- C8: during a sweep, every group in the queue's group index whose
job collection is empty is removed from the index (lazy pruning). -/
theorem C8_empty_groups_pruned {α : Type} (decode : String → Option α)
    (cb : JobRec α → Option String) (q : String) (now : Nat) (st : Store)
    (c : ConsumerStatus) (g : String)
    (hg : g ∈ st.setGet (queueGroupsKey q)) (hempty : st.zsets g = []) :
    g ∉ ((processQueueTasks decode cb q true now st c).store).setGet
      (queueGroupsKey q) := by
  unfold processQueueTasks
  simp only [Bool.not_true, Bool.false_eq_true, if_false]
  exact sweepGroups_prune_empty decode cb q (queueGroupsKey q) now g _ st c hg hempty

/-- C8 (witness): in a store whose index lists an empty group `E`
alongside a non-empty group `G`, one sweep removes `E` from the index. -/
theorem C8_witness :
    groupKey "q" "E" ∈ emptyGroupStore.setGet (queueGroupsKey "q") ∧
    emptyGroupStore.zsets (groupKey "q" "E") = [] ∧
    groupKey "q" "E" ∉
      ((processQueueTasks strDecode cbOk "q" true 0 emptyGroupStore
          .SLEEPING).store).setGet (queueGroupsKey "q") :=
  ⟨by decide, by decide,
   C8_empty_groups_pruned strDecode cbOk "q" 0 emptyGroupStore .SLEEPING
     (groupKey "q" "E") (by decide) (by decide)⟩

/-- C7: a payload `P` admitted with group name `G` (no options, empty
store) round-trips: the admission returns the new job identity, and the
next sweep delivers to the consumer exactly one job whose payload
decodes back to `P` and whose `groupName` is `G`, for any serialization
codec satisfying `dec (enc P) = some P`. -/
theorem C7_payload_roundtrip {α : Type} (P : α) (enc : α → String)
    (dec : String → Option α) (q G : String) (cb : JobRec α → Option String)
    (now : Nat) (hdec : dec (enc P) = some P) :
    (queueAdd .publisher envOk enc q G P 0 0 0 now emptyStore).result = .ok (some 0) ∧
    (processQueueTasks dec cb q true now
        (queueAdd .publisher envOk enc q G P 0 0 0 now emptyStore).store
        .SLEEPING).delivered = [⟨0, P, G⟩] := by
  constructor
  · rfl
  · cases hcb : cb ⟨0, P, G⟩ with
    | none =>
      simp [queueAdd, envOk, hasPublisherClient, enqueueScript, processQueueTasks,
        sweepGroups, sweepGroup, Store.setGet, Store.setAdd, Store.zcard, zinsertList,
        dequeueScript, dequeueLoop, emptyStore, hdec, hcb, consumerProcess]
    | some e =>
      simp [queueAdd, envOk, hasPublisherClient, enqueueScript, processQueueTasks,
        sweepGroups, sweepGroup, Store.setGet, Store.setAdd, Store.zcard, zinsertList,
        dequeueScript, dequeueLoop, emptyStore, hdec, hcb, consumerProcess]

/-- C7 (witness): the round-trip instantiated with the identity string
codec and payload "hello". -/
theorem C7_witness :
    (queueAdd .publisher envOk (fun s : String => s) "q" "G" "hello"
        0 0 0 5 emptyStore).result = .ok (some 0) ∧
    (processQueueTasks strDecode cbOk "q" true 5
        (queueAdd .publisher envOk (fun s : String => s) "q" "G" "hello"
          0 0 0 5 emptyStore).store .SLEEPING).delivered = [⟨0, "hello", "G"⟩] :=
  C7_payload_roundtrip "hello" (fun s => s) strDecode "q" "G" cbOk 5 rfl

/-- C9: `process(queue, callback)` raises when the instance is not in
the subscriber role; raises when a consumer is already registered for
that queue name; and otherwise registers exactly one consumer for the
queue and immediately runs one dequeue sweep for it. -/
theorem C9_process_registration {α : Type} (ty : QueueType) (cs : List String)
    (q : String) (decode : String → Option α) (cb : JobRec α → Option String)
    (sha : Bool) (now : Nat) (st : Store) :
    (ty ≠ .subscriber →
      (queueProcess ty cs q decode cb sha now st).result =
        .error "Only subscriber instances can process jobs" ∧
      (queueProcess ty cs q decode cb sha now st).consumers = cs ∧
      (queueProcess ty cs q decode cb sha now st).sweep = none) ∧
    (ty = .subscriber → q ∈ cs →
      (queueProcess ty cs q decode cb sha now st).result =
        .error ("A processor for queue '" ++ q ++ "' already exists") ∧
      (queueProcess ty cs q decode cb sha now st).consumers = cs ∧
      (queueProcess ty cs q decode cb sha now st).sweep = none) ∧
    (ty = .subscriber → q ∉ cs →
      (queueProcess ty cs q decode cb sha now st).result = .ok () ∧
      (queueProcess ty cs q decode cb sha now st).consumers = cs ++ [q] ∧
      (queueProcess ty cs q decode cb sha now st).sweep =
        some (processQueueTasks decode cb q sha now st .SLEEPING)) := by
  refine ⟨?_, ?_, ?_⟩
  · intro h
    simp [queueProcess, h]
  · intro h hm
    subst h
    simp [queueProcess, hm]
  · intro h hm
    subst h
    simp [queueProcess, hm]

/-- C9 (witness): the registration contract exercised at a publisher
instance, a duplicate registration, and a fresh registration. -/
theorem C9_witness :
    ((queueProcess .publisher [] "emails" strDecode cbOk true 0 emptyStore).result =
        .error "Only subscriber instances can process jobs" ∧
      (queueProcess .publisher [] "emails" strDecode cbOk true 0 emptyStore).consumers = [] ∧
      (queueProcess .publisher [] "emails" strDecode cbOk true 0 emptyStore).sweep = none) ∧
    ((queueProcess .subscriber ["emails"] "emails" strDecode cbOk true 0 emptyStore).result =
        .error ("A processor for queue '" ++ "emails" ++ "' already exists") ∧
      (queueProcess .subscriber ["emails"] "emails" strDecode cbOk true 0
        emptyStore).consumers = ["emails"] ∧
      (queueProcess .subscriber ["emails"] "emails" strDecode cbOk true 0
        emptyStore).sweep = none) ∧
    ((queueProcess .subscriber [] "emails" strDecode cbOk true 0 emptyStore).result = .ok () ∧
      (queueProcess .subscriber [] "emails" strDecode cbOk true 0 emptyStore).consumers =
        [] ++ ["emails"] ∧
      (queueProcess .subscriber [] "emails" strDecode cbOk true 0 emptyStore).sweep =
        some (processQueueTasks strDecode cbOk "emails" true 0 emptyStore .SLEEPING)) :=
  ⟨(C9_process_registration .publisher [] "emails" strDecode cbOk true 0 emptyStore).1
     (by decide),
   (C9_process_registration .subscriber ["emails"] "emails" strDecode cbOk true 0
     emptyStore).2.1 rfl (by decide),
   (C9_process_registration .subscriber [] "emails" strDecode cbOk true 0
     emptyStore).2.2 rfl (by decide)⟩

/-- A job is a member of the collection it is inserted into. -/
theorem mem_zinsertList (j : StoredJob) (l : List StoredJob) : j ∈ zinsertList j l := by
  induction l with
  | nil => exact List.mem_singleton.2 rfl
  | cons x xs ih =>
    unfold zinsertList
    split
    · exact List.mem_cons_self j _
    · exact List.mem_cons_of_mem x ih

/-- C10: on an instance constructed in the subscriber role, `add` never
attempts a new-job notification publish (no publisher connection
exists), yet when the external calls succeed it still admits the job to
the store and returns its identity — such jobs are only picked up by
the periodic poll path. -/
theorem C10_subscriber_add_no_publish {α : Type} (env : AddEnv) (enc : α → String)
    (q g : String) (d : α) (prio : Int) (delay ttl now : Nat) (st : Store) :
    (queueAdd .subscriber env enc q g d prio delay ttl now st).publishAttempted = false ∧
    (env = envOk →
      (queueAdd .subscriber env enc q g d prio delay ttl now st).result =
        .ok (some st.nextId) ∧
      (⟨st.nextId, enc d, g, prio, now + delay,
          if ttl > 0 then some (now + ttl) else none⟩ : StoredJob) ∈
        (queueAdd .subscriber env enc q g d prio delay ttl now st).store.zsets
          (groupKey q g)) := by
  constructor
  · obtain ⟨gc, sha, enq, pub⟩ := env
    cases gc <;> cases sha <;> cases enq <;> cases pub <;>
      simp [queueAdd, hasPublisherClient]
  · intro h
    subst h
    refine ⟨rfl, ?_⟩
    simp only [queueAdd, envOk, hasPublisherClient, enqueueScript, Store.setAdd,
      Bool.not_true, Bool.false_eq_true, if_false, if_pos rfl]
    exact mem_zinsertList _ _

/-- C10 (witness): the subscriber-role `add` at concrete inputs. -/
theorem C10_witness :
    (queueAdd .subscriber envOk (fun s : String => s) "q" "g" "data" 0 0 0 9
        emptyStore).publishAttempted = false ∧
    ((queueAdd .subscriber envOk (fun s : String => s) "q" "g" "data" 0 0 0 9
        emptyStore).result = .ok (some emptyStore.nextId) ∧
      (⟨emptyStore.nextId, "data", "g", 0, 9 + 0,
          if 0 > 0 then some (9 + 0) else none⟩ : StoredJob) ∈
        (queueAdd .subscriber envOk (fun s : String => s) "q" "g" "data" 0 0 0 9
          emptyStore).store.zsets (groupKey "q" "g")) :=
  ⟨(C10_subscriber_add_no_publish envOk (fun s : String => s) "q" "g" "data"
      0 0 0 9 emptyStore).1,
   (C10_subscriber_add_no_publish envOk (fun s : String => s) "q" "g" "data"
      0 0 0 9 emptyStore).2 rfl⟩

end QTask
